import Mathlib

/-!
Shallow embedding of the tangle-coordination core of the proxima node
(packages `core/attacher`, `ledger/transaction`, `sequencer/tippool`,
`sequencer`), together with theorems settling the frozen claims about it.

Wrapped transactions (VIDs) are identified by `Nat` handles: the Go code
compares them by pointer identity and the DAG registry guarantees one
handle per transaction id.  Runtime data attached to a VID (status,
timestamp, flags, payload kind) is supplied by an explicit environment
record, since the attacher only reads it through accessor methods.
-/

/-- A wrapped-transaction handle (pointer identity in the Go code). -/
abbrev VID := Nat

/-- Status of a wrapped transaction: `vertex.Undefined`, `vertex.Good`, `vertex.Bad`. -/
inductive TxStatus where
  | undefined
  | good
  | bad
deriving DecidableEq

/-- Payload variant of a wrapped transaction: full vertex, virtual tx, or deleted. -/
inductive Payload where
  | vertexFull
  | virtualTx
  | deleted
deriving DecidableEq

/-- `ledger.LogicalTime`: a slot (u32) and a tick (u8). -/
structure LogicalTime where
  slot : Nat
  tick : Nat
deriving DecidableEq

/-- `LogicalTime.Before`: strict slot-major, tick-minor order. -/
def ltBefore (a b : LogicalTime) : Bool :=
  a.slot < b.slot || (a.slot == b.slot && a.tick < b.tick)

/-- `LogicalTime.After`: the strict order reversed. -/
def ltAfter (a b : LogicalTime) : Bool :=
  ltBefore b a

/-- The Go zero value `ledger.NilLogicalTime`. -/
def nilLogicalTime : LogicalTime := ⟨0, 0⟩

/-- Read-only per-VID data the attacher obtains through `WrappedTx` accessor
methods: `GetTxStatus`, `Timestamp`, `IsSequencerMilestone`,
`IsBranchTransaction`, `BaselineBranch`, the payload variant seen by
`Unwrap`, and the `multistate.BranchIsDescendantOf` relation backed by the
state store (`descendantOf d anc = true` when branch `d` is a stem-descendant
of branch `anc`). -/
structure AttEnv where
  status : VID → TxStatus
  timestamp : VID → LogicalTime
  isSeqMilestone : VID → Bool
  isBranchTx : VID → Bool
  baselineBranch : VID → Option VID
  descendantOf : VID → VID → Bool
  payload : VID → Payload

/-- `vid.Slot()`: the slot of the VID timestamp. -/
def slotOf (env : AttEnv) (v : VID) : Nat :=
  (env.timestamp v).slot

/-- `attacher.branchesCompatible` (attacher_milestone.go): equal pointers are
compatible, two distinct branches on the same slot conflict, otherwise the
earlier branch must be an ancestor of the later one via
`multistate.BranchIsDescendantOf`. -/
def branchesCompatible (env : AttEnv) (vid1 vid2 : VID) : Bool :=
  if vid1 = vid2 then true
  else if slotOf env vid1 = slotOf env vid2 then false
  else if slotOf env vid1 < slotOf env vid2 then env.descendantOf vid2 vid1
  else env.descendantOf vid1 vid2

/-- Go `bytes.Compare(a, b) > 0`: `a` is lexicographically greater than `b`
(a proper prefix is smaller). -/
def bytesLexGt : List Nat → List Nat → Bool
  | [], [] => false
  | [], _ :: _ => false
  | _ :: _, [] => true
  | a :: as, b :: bs =>
    if a > b then true
    else if a < b then false
    else bytesLexGt as bs

/-- Data read from milestone VIDs by the preference order:
`GetLedgerCoverage().Sum()` and the 33 raw transaction-id bytes `vid.ID[:]`. -/
structure MsEnv where
  coverageSum : VID → Nat
  idBytes : VID → List Nat

/-- `tippool.isPreferredMilestoneAgainstTheOther` (and its twin in
`sequencer/proposer.go`): preference by strictly greater ledger-coverage sum,
with equal coverage broken by lexicographically greater transaction id.
The `vid2 == nil` guard of the Go code is omitted: both arguments are
dereferenced by the assertion before the guard, so only non-nil VIDs reach it. -/
def isPreferredMilestoneAgainstTheOther (env : MsEnv) (vid1 vid2 : VID) : Bool :=
  if vid1 = vid2 then false
  else
    let coverage1 := env.coverageSum vid1
    let coverage2 := env.coverageSum vid2
    if coverage1 > coverage2 then true
    else if coverage1 = coverage2 then bytesLexGt (env.idBytes vid1) (env.idBytes vid2)
    else false

/-- C4: branch-compatibility algebra of `branchesCompatible`: reflexivity,
conflict of distinct same-slot branches, and the resulting transitivity
collapse inside one slot. -/
theorem c4_branches_compatible_algebra (env : AttEnv) (b b1 b2 b3 : VID)
    (_hb : env.isBranchTx b = true) (_hb1 : env.isBranchTx b1 = true)
    (_hb2 : env.isBranchTx b2 = true) (_hb3 : env.isBranchTx b3 = true) :
    branchesCompatible env b b = true ∧
    (slotOf env b1 = slotOf env b2 → b1 ≠ b2 → branchesCompatible env b1 b2 = false) ∧
    (slotOf env b1 = slotOf env b2 → slotOf env b2 = slotOf env b3 →
      branchesCompatible env b1 b2 = true → branchesCompatible env b2 b3 = true →
      b1 = b2 ∧ b2 = b3) := by
  refine ⟨by simp [branchesCompatible], ?_, ?_⟩
  · intro hslot hne
    simp [branchesCompatible, hne, hslot]
  · intro h12 h23 hc12 hc23
    by_cases e12 : b1 = b2
    · by_cases e23 : b2 = b3
      · exact ⟨e12, e23⟩
      · simp [branchesCompatible, e23, h23] at hc23
    · simp [branchesCompatible, e12, h12] at hc12

theorem c4_branches_compatible_algebra_witness :
    branchesCompatible ⟨fun _ => .good, fun v => ⟨v, 0⟩, fun _ => true, fun _ => true,
      fun _ => none, fun _ _ => false, fun _ => .vertexFull⟩ 5 5 = true :=
  (c4_branches_compatible_algebra ⟨fun _ => .good, fun v => ⟨v, 0⟩, fun _ => true,
    fun _ => true, fun _ => none, fun _ _ => false, fun _ => .vertexFull⟩
    5 1 2 3 rfl rfl rfl rfl).1

/-- C5: for distinct sequencer milestones, preference holds exactly when the
ledger-coverage sum is strictly greater or the sums are equal and the
transaction id is lexicographically greater; a milestone is never preferred
against itself. -/
theorem c5_preferred_milestone_order (env : MsEnv) (v1 v2 : VID) :
    (v1 ≠ v2 →
      (isPreferredMilestoneAgainstTheOther env v1 v2 = true ↔
        env.coverageSum v1 > env.coverageSum v2 ∨
        (env.coverageSum v1 = env.coverageSum v2 ∧
          bytesLexGt (env.idBytes v1) (env.idBytes v2) = true))) ∧
    (v1 = v2 → isPreferredMilestoneAgainstTheOther env v1 v2 = false) := by
  constructor
  · intro hne
    simp only [isPreferredMilestoneAgainstTheOther, if_neg hne]
    by_cases hgt : env.coverageSum v1 > env.coverageSum v2
    · simp [hgt]
    · by_cases heq : env.coverageSum v1 = env.coverageSum v2
      · simp [hgt, heq]
      · simp [hgt, heq]
  · intro he
    simp [isPreferredMilestoneAgainstTheOther, he]

theorem c5_preferred_milestone_order_witness :
    isPreferredMilestoneAgainstTheOther ⟨fun v => v, fun v => [v]⟩ 2 1 = true :=
  ((c5_preferred_milestone_order ⟨fun v => v, fun v => [v]⟩ 2 1).1
    (by decide)).mpr (Or.inl (by decide))

/-- `attacher.checkConflictsFunc` (attacher_milestone.go): the closure handed
to `AttachConsumer`.  It scans the existing consumers of the output; a
consumer equal to the consumer being attached is skipped, and any other
consumer lying in `validPastVertices` or `undefinedPastVertices` of this
attacher is a conflict.  The two set fields are carried as lists of VIDs. -/
def checkConflictsFunc (validPastVertices undefinedPastVertices : List VID)
    (consumerTx : VID) (existingConsumers : List VID) : Bool :=
  existingConsumers.any fun existingConsumer =>
    existingConsumer ≠ consumerTx &&
      (validPastVertices.contains existingConsumer ||
        undefinedPastVertices.contains existingConsumer)

/-- Modelled from the spec: `attach_consumer(index, consumer_VID,
conflict_check_fn) -> bool` of the wrapped-transaction layer — it atomically
inserts the consumer VID into `consumers[index]` iff the conflict check
rejects none of the existing consumers; the `vertex.WrappedTx.AttachConsumer`
implementation itself is not among the provided sources.  Returns the Go
boolean (true = attached) plus the updated consumer set of that output. -/
def attachConsumer (existingConsumers : List VID) (consumerTx : VID)
    (check : List VID → Bool) : Bool × List VID :=
  if check existingConsumers then (false, existingConsumers)
  else (true,
    if existingConsumers.contains consumerTx then existingConsumers
    else consumerTx :: existingConsumers)

/-- Failure reasons produced by `attachInputID`, in source order: a Bad
producing transaction cascades, a conflict among consumers is the
double-spend error for that output id `(producing tx, output index)`, and a
baseline mismatch of a sequencer input is the incompatible-branches error. -/
inductive AttachErr where
  | dependencyBad
  | doubleSpend (producer : VID) (outIdx : Nat)
  | branchesIncompatible
deriving DecidableEq

/-- `attacher.attachInputID` (attacher_milestone.go), for an input whose
producing VID `inputTx` already exists: it fails when `inputTx` is Bad,
then calls `AttachConsumer` with `checkConflictsFunc` and fails with the
double-spend error when a conflict is reported, then for a sequencer-
milestone input with a known baseline checks `branchesCompatible` against
the attacher baseline.  On success it returns the updated consumer set of
the output `(inputTx, outIdx)`. -/
def attachInputID (env : AttEnv) (validPastVertices undefinedPastVertices : List VID)
    (baseline : VID) (consumerTx inputTx : VID) (outIdx : Nat)
    (existingConsumers : List VID) : Except AttachErr (List VID) :=
  if env.status inputTx = .bad then .error .dependencyBad
  else
    match attachConsumer existingConsumers consumerTx
        (checkConflictsFunc validPastVertices undefinedPastVertices consumerTx) with
    | (false, _) => .error (.doubleSpend inputTx outIdx)
    | (true, updatedConsumers) =>
      if env.isSeqMilestone inputTx then
        match env.baselineBranch inputTx with
        | some inputBaselineBranch =>
          if branchesCompatible env baseline inputBaselineBranch then .ok updatedConsumers
          else .error .branchesIncompatible
        | none => .ok updatedConsumers
      else .ok updatedConsumers

/-- Decidable equality for `Except`, used to evaluate embedded functions at
concrete inputs. -/
instance {e a : Type} [DecidableEq e] [DecidableEq a] : DecidableEq (Except e a) := fun x y =>
  match x, y with
  | .ok v, .ok w => if h : v = w then .isTrue (by rw [h]) else .isFalse (by simp [h])
  | .error v, .error w => if h : v = w then .isTrue (by rw [h]) else .isFalse (by simp [h])
  | .ok _, .error _ => .isFalse (by simp)
  | .error _, .ok _ => .isFalse (by simp)

/-- A fixed environment used by concrete counterexamples and witnesses of the
conflict-rule claims: every VID is Undefined, non-sequencer, non-branch. -/
def envPlain : AttEnv :=
  ⟨fun _ => .undefined, fun _ => ⟨0, 0⟩, fun _ => false, fun _ => false,
    fun _ => none, fun _ _ => false, fun _ => .vertexFull⟩

/-- C1 counterexample: the claim as stated is false on the code.  Take an
attacher whose `undefinedPastVertices` is exactly the consumer VID 7 (the
consumer is always a known past-cone vertex when `attachInputID` runs), and
an output of producer 3 whose registered consumer set is already `[7]` from
an earlier pass.  Then a transaction already registered as a consumer of the
output (7) is a member of valid ∪ undefined, yet `checkConflictsFunc`
reports no conflict and `attachInputID` succeeds instead of failing with the
double-spend error. -/
theorem c1_self_consumer_not_conflict :
    (7 : VID) ∈ [7] ∧ ((7 : VID) ∈ ([] : List VID) ∨ (7 : VID) ∈ [7]) ∧
    checkConflictsFunc [] [7] 7 [7] = false ∧
    attachInputID envPlain [] [7] 1 7 3 0 [7] = .ok [7] := by
  refine ⟨by decide, Or.inr (by decide), by decide, by decide⟩

/-- C1 (amended): whenever some transaction OTHER THAN the consumer being
attached is already registered as a consumer of the output and is a member
of the attacher valid ∪ undefined past-cone sets, and the producing
transaction is not already Bad, the conflict-check closure reports a
conflict and `attachInputID` fails with the double-spend error for that
output. -/
theorem c1_double_spend_conflict_amended (env : AttEnv)
    (validPastVertices undefinedPastVertices : List VID)
    (baseline consumerTx inputTx : VID) (outIdx : Nat)
    (existingConsumers : List VID) (c : VID)
    (hnotbad : env.status inputTx ≠ .bad)
    (hc : c ∈ existingConsumers) (hne : c ≠ consumerTx)
    (hmem : c ∈ validPastVertices ∨ c ∈ undefinedPastVertices) :
    checkConflictsFunc validPastVertices undefinedPastVertices consumerTx
      existingConsumers = true ∧
    attachInputID env validPastVertices undefinedPastVertices baseline
      consumerTx inputTx outIdx existingConsumers =
      .error (.doubleSpend inputTx outIdx) := by
  have hconf : checkConflictsFunc validPastVertices undefinedPastVertices consumerTx
      existingConsumers = true := by
    simp only [checkConflictsFunc, List.any_eq_true]
    refine ⟨c, hc, ?_⟩
    rcases hmem with hm | hm <;> simp [hne, hm]
  refine ⟨hconf, ?_⟩
  unfold attachInputID
  rw [if_neg hnotbad]
  rw [show attachConsumer existingConsumers consumerTx
      (checkConflictsFunc validPastVertices undefinedPastVertices consumerTx) =
      (false, existingConsumers) from by simp [attachConsumer, hconf]]

theorem c1_double_spend_conflict_amended_witness :
    checkConflictsFunc [] [5] 7 [5] = true ∧
    attachInputID envPlain [] [5] 1 7 3 0 [5] = .error (.doubleSpend 3 0) :=
  c1_double_spend_conflict_amended envPlain [] [5] 1 7 3 0 [5] 5
    (by decide) (by decide) (by decide) (Or.inr (by decide))

/-- C9: the conflict check never counts the consumer transaction itself: if
every registered consumer of the output lying in valid ∪ undefined equals
the consumer being attached, no conflict is reported, `AttachConsumer`
attaches (returns true), and `attachInputID` never fails with a double-spend
error — a repeated pass of the same attacher over the same input succeeds. -/
theorem c9_self_consumer_exemption (env : AttEnv)
    (validPastVertices undefinedPastVertices : List VID)
    (baseline consumerTx inputTx : VID) (outIdx : Nat)
    (existingConsumers : List VID)
    (h : ∀ c ∈ existingConsumers,
      c ∈ validPastVertices ∨ c ∈ undefinedPastVertices → c = consumerTx) :
    checkConflictsFunc validPastVertices undefinedPastVertices consumerTx
      existingConsumers = false ∧
    (attachConsumer existingConsumers consumerTx
      (checkConflictsFunc validPastVertices undefinedPastVertices consumerTx)).1 = true ∧
    ∀ p i, attachInputID env validPastVertices undefinedPastVertices baseline
      consumerTx inputTx outIdx existingConsumers ≠ .error (.doubleSpend p i) := by
  have hfalse : checkConflictsFunc validPastVertices undefinedPastVertices consumerTx
      existingConsumers = false := by
    simp only [checkConflictsFunc, List.any_eq_false]
    intro c hc
    by_cases hceq : c = consumerTx
    · simp [hceq]
    · have hnm : ¬ (c ∈ validPastVertices ∨ c ∈ undefinedPastVertices) :=
        fun hm => hceq (h c hc hm)
      push_neg at hnm
      simp [hceq, hnm.1, hnm.2]
  refine ⟨hfalse, by simp [attachConsumer, hfalse], ?_⟩
  intro p i
  unfold attachInputID
  by_cases hbad : env.status inputTx = .bad
  · simp [hbad]
  · rw [if_neg hbad]
    rw [show attachConsumer existingConsumers consumerTx
        (checkConflictsFunc validPastVertices undefinedPastVertices consumerTx) =
        (true, if existingConsumers.contains consumerTx then existingConsumers
          else consumerTx :: existingConsumers) from by simp [attachConsumer, hfalse]]
    cases henv : env.isSeqMilestone inputTx
    · simp
    · cases hb : env.baselineBranch inputTx with
      | none => simp
      | some bb =>
        by_cases hcomp : branchesCompatible env baseline bb = true
        · simp [hcomp]
        · simp [hcomp]

theorem c9_self_consumer_exemption_witness :
    checkConflictsFunc [] [7] 7 [7] = false ∧
    (attachConsumer [7] 7 (checkConflictsFunc [] [7] 7)).1 = true ∧
    ∀ p i, attachInputID envPlain [] [7] 1 7 3 0 [7] ≠ .error (.doubleSpend p i) :=
  c9_self_consumer_exemption envPlain [] [7] 1 7 3 0 [7] (by decide)

/-- The sugared baseline state reader used by the past-cone attacher:
`KnowsCommittedTransaction` keyed by the producing transaction, and
`GetOutput` on an output id `(producing tx, output index)` returning the
output when it is a UTXO of the baseline state (`none` when absent).  Only
the amount of the output is consumed by `attachRooted`, so the output is
represented by its amount. -/
structure StateReader where
  knowsTx : VID → Bool
  getOutput : VID → Nat → Option Nat

/-- The rooted bookkeeping of a past-cone attacher: the map
`rooted: map<VID, set<byte>>` flattened to a duplicate-free list of
`(producing VID, output index)` pairs, plus the running `coverageDelta`. -/
structure RootedState where
  rooted : List (VID × Nat)
  coverageDelta : Nat
deriving DecidableEq

/-- The index set `a.rooted[vid]` of one producing VID. -/
def rootedIndicesOf (rooted : List (VID × Nat)) (v : VID) : List Nat :=
  (rooted.filter fun p => p.1 = v).map fun p => p.2

/-- `attacher.attachRooted` (attacher_milestone.go): an output later than the
baseline cannot be rooted; an output already recorded is covered; an output
of a transaction unknown to the baseline state with no other rooted outputs
is simply unrooted; otherwise the output must be a UTXO of the baseline
state — then it is recorded and its amount added to `coverageDelta` — and
if it is absent the attacher fails (consumed in the baseline state,
returned as `none` here). -/
def attachRooted (env : AttEnv) (st : StateReader) (baseline : VID)
    (a : RootedState) (wOut : VID × Nat) : Option (RootedState × Bool) :=
  if ltAfter (env.timestamp wOut.1) (env.timestamp baseline) then some (a, false)
  else if (wOut.1, wOut.2) ∈ a.rooted then some (a, true)
  else if rootedIndicesOf a.rooted wOut.1 = [] ∧ st.knowsTx wOut.1 = false then
    some (a, false)
  else
    match st.getOutput wOut.1 wOut.2 with
    | some amount =>
      some ({ rooted := (wOut.1, wOut.2) :: a.rooted,
              coverageDelta := a.coverageDelta + amount }, true)
    | none => none

/-- The rooted-coverage invariant of claim C2: the recorded pairs are
duplicate-free, `coverageDelta` is the sum of the baseline amounts of all
recorded pairs, every recorded pair is a UTXO of the baseline state, and no
recorded output is later than the baseline. -/
def rootedInv (env : AttEnv) (st : StateReader) (baseline : VID)
    (a : RootedState) : Prop :=
  a.rooted.Nodup ∧
  a.coverageDelta = (a.rooted.map fun p => (st.getOutput p.1 p.2).getD 0).sum ∧
  (∀ p ∈ a.rooted, (st.getOutput p.1 p.2).isSome = true) ∧
  (∀ p ∈ a.rooted, ltAfter (env.timestamp p.1) (env.timestamp baseline) = false)

/-- C2: every call of `attachRooted` that returns ok preserves the
rooted-coverage invariant (which the fresh attacher state establishes
trivially). -/
theorem c2_attachRooted_preserves_invariant (env : AttEnv) (st : StateReader)
    (baseline : VID) (a : RootedState) (wOut : VID × Nat)
    (a' : RootedState) (b : Bool)
    (hinv : rootedInv env st baseline a)
    (hcall : attachRooted env st baseline a wOut = some (a', b)) :
    rootedInv env st baseline a' := by
  unfold attachRooted at hcall
  by_cases h1 : ltAfter (env.timestamp wOut.1) (env.timestamp baseline) = true
  · simp only [h1, if_true, Option.some.injEq, Prod.mk.injEq] at hcall
    exact hcall.1 ▸ hinv
  · rw [if_neg (by simp [h1])] at hcall
    by_cases h2 : (wOut.1, wOut.2) ∈ a.rooted
    · simp only [if_pos h2, Option.some.injEq, Prod.mk.injEq] at hcall
      exact hcall.1 ▸ hinv
    · rw [if_neg h2] at hcall
      by_cases h3 : rootedIndicesOf a.rooted wOut.1 = [] ∧ st.knowsTx wOut.1 = false
      · simp only [if_pos h3, Option.some.injEq, Prod.mk.injEq] at hcall
        exact hcall.1 ▸ hinv
      · rw [if_neg h3] at hcall
        cases hget : st.getOutput wOut.1 wOut.2 with
        | none => rw [hget] at hcall; exact absurd hcall (by simp)
        | some amount =>
          rw [hget] at hcall
          simp only [Option.some.injEq, Prod.mk.injEq] at hcall
          obtain ⟨hinv1, hinv2, hinv3, hinv4⟩ := hinv
          rw [← hcall.1]
          refine ⟨?_, ?_, ?_, ?_⟩
          · exact List.nodup_cons.mpr ⟨h2, hinv1⟩
          · simp only [List.map_cons, List.sum_cons, hget, Option.getD_some]
            omega
          · intro p hp
            rcases List.mem_cons.mp hp with rfl | hp'
            · simp [hget]
            · exact hinv3 p hp'
          · intro p hp
            rcases List.mem_cons.mp hp with rfl | hp'
            · exact Bool.eq_false_iff.mpr h1
            · exact hinv4 p hp'

/-- Environment for the concrete rooted/parasitic scenarios: VID 1 is the
baseline branch at time (10,0); VID 2 is a producing transaction at (5,0);
payloads are virtual. -/
def envCone : AttEnv :=
  ⟨fun _ => .undefined,
    fun v => if v = 1 then ⟨10, 0⟩ else if v = 2 then ⟨5, 0⟩ else ⟨0, 0⟩,
    fun _ => false, fun v => v == 1, fun _ => none, fun _ _ => false,
    fun _ => .virtualTx⟩

/-- A baseline state that knows transaction 2 and holds its output 0 with
amount 7. -/
def stCone : StateReader :=
  ⟨fun v => v == 2, fun v i => if v = 2 ∧ i = 0 then some 7 else none⟩

instance rootedInvDecidable (env : AttEnv) (st : StateReader) (baseline : VID)
    (a : RootedState) : Decidable (rootedInv env st baseline a) := by
  unfold rootedInv
  infer_instance

theorem c2_attachRooted_preserves_invariant_witness :
    rootedInv envCone stCone 1 ⟨[(2, 0)], 7⟩ :=
  c2_attachRooted_preserves_invariant envCone stCone 1 ⟨[], 0⟩ (2, 0)
    ⟨[(2, 0)], 7⟩ true (by decide) (by decide)

/-- Modelled from the spec: the constant `maxToleratedParasiticChainSlots` is
referenced by `attachInput` but not defined in the provided sources; the
spec notes the reference implementation uses a small single-digit number,
taken as 1 here. -/
def maxToleratedParasiticChainSlots : Nat := 1

/-- The modulus of the 32-bit `ledger.Slot` arithmetic. -/
def u32 : Nat := 2 ^ 32

/-- The horizon computation of `attacher.attachInput` (attacher_milestone.go):
when the incoming horizon is `ledger.NilLogicalTime`, it becomes
`MustNewLogicalTime(inputVid.Timestamp().Slot() - maxToleratedParasiticChainSlots, 0)`
— anchored at the slot of the producing transaction of the consumed output,
with wrapping uint32 subtraction; a non-nil horizon is kept. -/
def computeParasiticHorizon (env : AttEnv) (horizon : LogicalTime)
    (inputVid : VID) : LogicalTime :=
  if horizon = nilLogicalTime then
    ⟨(slotOf env inputVid + u32 - maxToleratedParasiticChainSlots) % u32, 0⟩
  else horizon

/-- Outcome of `attacher.attachOutput` with the recursive continuation cut
off: either the rooted check failed (consumed in baseline), or the output is
rooted, or the parasitic-chain threshold is broken, or the attacher descends
into the producing full vertex (`attachVertex` recursion, with the horizon
reset for a good sequencer milestone), or it only registers a poke, or it
pulls a virtual transaction, or the payload is deleted and the unwrap runs
no handler. -/
inductive OutputAttachResult where
  | failRooted
  | okRooted
  | failParasitic
  | descendVertex
  | pokeOnly
  | pullVirtual
  | deletedNoAction
deriving DecidableEq

/-- `attacher.attachOutput` (attacher_milestone.go): first `attachRooted`;
a rooted output is done; an unrooted output strictly before the horizon
breaks the parasitic-chain threshold; otherwise the attacher goes deeper
into a full vertex when it is not a sequencer milestone or is Good, pokes
otherwise, and pulls a virtual transaction.  The recursion into
`attachVertex` is represented by the `descendVertex` outcome. -/
def attachOutput (env : AttEnv) (st : StateReader) (baseline : VID)
    (a : RootedState) (wOut : VID × Nat)
    (parasiticChainHorizon : LogicalTime) : RootedState × OutputAttachResult :=
  match attachRooted env st baseline a wOut with
  | none => (a, .failRooted)
  | some (a', true) => (a', .okRooted)
  | some (a', false) =>
    if ltBefore (env.timestamp wOut.1) parasiticChainHorizon then (a', .failParasitic)
    else
      match env.payload wOut.1 with
      | .vertexFull =>
        if env.isSeqMilestone wOut.1 = false ∨ env.status wOut.1 = .good then
          (a', .descendVertex)
        else (a', .pokeOnly)
      | .virtualTx => (a', .pullVirtual)
      | .deleted => (a', .deletedNoAction)

/-- C3 counterexample: the claim as stated is false on the code.  Baseline
branch 1 sits at time (10,0); the consumed output (2,0) is unrooted (the
baseline knows nothing) and its timestamp (5,0) is strictly older than
`baseline.timestamp - maxToleratedParasiticChainSlots` slots = (9,0), so
the claim demands a parasitic-chain failure; but `attachInput` anchors the
horizon at the slot of the producing transaction itself (5 - 1 = 4), the
output is not before (4,0), and `attachOutput` pulls the virtual
transaction instead of failing. -/
theorem c3_parasitic_anchor_counterexample :
    attachRooted envCone ⟨fun _ => false, fun _ _ => none⟩ 1 ⟨[], 0⟩ (2, 0) =
      some (⟨[], 0⟩, false) ∧
    ltBefore (envCone.timestamp 2)
      ⟨(envCone.timestamp 1).slot - maxToleratedParasiticChainSlots, 0⟩ = true ∧
    computeParasiticHorizon envCone nilLogicalTime 2 = ⟨4, 0⟩ ∧
    attachOutput envCone ⟨fun _ => false, fun _ _ => none⟩ 1 ⟨[], 0⟩ (2, 0)
      (computeParasiticHorizon envCone nilLogicalTime 2) =
      (⟨[], 0⟩, .pullVirtual) := by
  refine ⟨by decide, by decide, by decide, by decide⟩

/-- C3 (amended): the parasitic-chain check of `attachOutput` rejects an
unrooted consumed output with the parasitic-chain-threshold error exactly
when its timestamp is strictly before the horizon it is given, and an
unrooted output at or after that horizon is never rejected for this
reason; the horizon, when not propagated from an outer call, is anchored by
`attachInput` at the slot of the producing transaction of the consumed
output minus `maxToleratedParasiticChainSlots` (tick 0), not at the
baseline timestamp. -/
theorem c3_parasitic_rule_amended (env : AttEnv) (st : StateReader)
    (baseline : VID) (a : RootedState) (wOut : VID × Nat)
    (horizon : LogicalTime) (a' : RootedState)
    (hunrooted : attachRooted env st baseline a wOut = some (a', false)) :
    ((attachOutput env st baseline a wOut horizon).2 = .failParasitic ↔
      ltBefore (env.timestamp wOut.1) horizon = true) ∧
    (∀ inputVid, computeParasiticHorizon env nilLogicalTime inputVid =
      ⟨(slotOf env inputVid + u32 - maxToleratedParasiticChainSlots) % u32, 0⟩) := by
  constructor
  · unfold attachOutput
    rw [hunrooted]
    cases hb : ltBefore (env.timestamp wOut.1) horizon
    · cases hp : env.payload wOut.1
      · by_cases hs : env.isSeqMilestone wOut.1 = false ∨ env.status wOut.1 = .good
        · simp [hb, hp, hs]
        · simp [hb, hp, hs]
      · simp [hb, hp]
      · simp [hb, hp]
    · simp [hb]
  · intro inputVid
    simp [computeParasiticHorizon]

theorem c3_parasitic_rule_amended_witness :
    (attachOutput envCone ⟨fun _ => false, fun _ _ => none⟩ 1 ⟨[], 0⟩ (2, 0)
      ⟨9, 0⟩).2 = .failParasitic :=
  ((c3_parasitic_rule_amended envCone ⟨fun _ => false, fun _ _ => none⟩ 1
    ⟨[], 0⟩ (2, 0) ⟨9, 0⟩ ⟨[], 0⟩ (by decide)).1).mpr (by decide)

/-- A sequencer chain id, keying the tip-pool latest-milestone map. -/
abbrev ChainID := Nat

/-- Lookup in the tip-pool map `latestMilestones`, kept as an association
list with at most one entry per chain id. -/
def lookupMs (latest : List (ChainID × VID)) (s : ChainID) : Option VID :=
  (latest.find? fun p => p.1 == s).map fun p => p.2

/-- Map store `latestMilestones[seqID] = vid`. -/
def setMs (latest : List (ChainID × VID)) (s : ChainID) (v : VID) :
    List (ChainID × VID) :=
  (s, v) :: latest.filter fun p => p.1 ≠ s

/-- The sequencer listener installed by `tippool.New` (ListenToSequencers
closure): for an incoming Good sequencer milestone `vid` of sequencer
`seqID`, the stored entry is replaced when no previous entry exists or when
the incoming timestamp is NOT before the stored one. -/
def tippoolMilestoneListener (tsOf : VID → LogicalTime)
    (latest : List (ChainID × VID)) (seqID : ChainID) (vid : VID) :
    List (ChainID × VID) :=
  match lookupMs latest seqID with
  | none => setMs latest seqID vid
  | some old =>
    if ltBefore (tsOf vid) (tsOf old) = false then setMs latest seqID vid
    else latest

/-- C6 counterexample: the claim as stated is false on the code.  With a
stored entry (sequencer 0 ↦ VID 0) and an incoming distinct milestone VID 1
carrying exactly the same timestamp, the incoming timestamp is not newer
than the stored one, so the claim demands that the entry be left unchanged —
but the listener replaces it, because the code updates on
`!vid.Timestamp().Before(old.Timestamp())`, which also holds at equality. -/
theorem c6_equal_timestamp_replaces :
    lookupMs [(0, 0)] 0 = some 0 ∧
    ltBefore ((fun _ => (⟨3, 5⟩ : LogicalTime)) (1 : VID))
      ((fun _ => (⟨3, 5⟩ : LogicalTime)) (0 : VID)) = false ∧
    lookupMs (tippoolMilestoneListener (fun _ => ⟨3, 5⟩) [(0, 0)] 0 1) 0 = some 1 := by
  refine ⟨by decide, by decide, by decide⟩

/-- C6 (amended): the stored entry `latestMilestones[seqID]` is replaced by
the incoming Good milestone iff no entry exists yet or the incoming
timestamp is not earlier than (i.e. newer than or equal to) the stored
entry's timestamp; when the incoming timestamp is strictly earlier the map
is left unchanged. -/
theorem c6_latest_milestone_update_amended (tsOf : VID → LogicalTime)
    (latest : List (ChainID × VID)) (seqID : ChainID) (vid old : VID) :
    (lookupMs latest seqID = none →
      lookupMs (tippoolMilestoneListener tsOf latest seqID vid) seqID = some vid) ∧
    (lookupMs latest seqID = some old → ltBefore (tsOf vid) (tsOf old) = false →
      lookupMs (tippoolMilestoneListener tsOf latest seqID vid) seqID = some vid) ∧
    (lookupMs latest seqID = some old → ltBefore (tsOf vid) (tsOf old) = true →
      tippoolMilestoneListener tsOf latest seqID vid = latest) := by
  refine ⟨?_, ?_, ?_⟩
  · intro hnone
    unfold tippoolMilestoneListener
    rw [hnone]
    simp [lookupMs, setMs]
  · intro hsome hnb
    unfold tippoolMilestoneListener
    rw [hsome]
    simp only [hnb, if_true]
    simp [lookupMs, setMs]
  · intro hsome hb
    unfold tippoolMilestoneListener
    rw [hsome]
    simp [hb]

theorem c6_latest_milestone_update_amended_witness :
    lookupMs (tippoolMilestoneListener (fun v => ⟨v, 0⟩) [(0, 4)] 0 6) 0 = some 6 :=
  (c6_latest_milestone_update_amended (fun v => ⟨v, 0⟩) [(0, 4)] 0 6 4).2.1
    (by decide) (by decide)

/-- The slice of a produced output read by the tag-along candidate check:
the index returned by `o.ChainConstraint()` (0xff = no chain constraint). -/
structure TagOutput where
  chainConstraintIdx : Nat
deriving DecidableEq

/-- A wrapped output handle as kept in the tip pool: producing VID plus
output index. -/
structure WOut where
  vid : VID
  idx : Nat
deriving DecidableEq

/-- VID accessors used by the tip pool: `IsBadOrDeleted`,
`IsBranchTransaction`, and `OutputAt` — the latter may fail (index error),
return no output yet (virtual payload), or return the output. -/
structure TipEnv where
  isBadOrDeleted : VID → Bool
  isBranchTx : VID → Bool
  outputAt : VID → Nat → Except Unit (Option TagOutput)

/-- `tippool.isCandidateToTagAlong`: rejects outputs of Bad or Deleted VIDs,
outputs of branch transactions, outputs whose index does not resolve, and
outputs carrying a chain constraint; everything else is a candidate. -/
def isCandidateToTagAlong (env : TipEnv) (wOut : WOut) : Bool :=
  if env.isBadOrDeleted wOut.vid then false
  else if env.isBranchTx wOut.vid then false
  else
    match env.outputAt wOut.vid wOut.idx with
    | .error _ => false
    | .ok o =>
      match o with
      | some o => if o.chainConstraintIdx ≠ 255 then false else true
      | none => true

/-- The chain-locked-account listener installed by `tippool.New`
(ListenToAccount closure): an incoming wrapped output is inserted into
`outputs` only when it passes `isCandidateToTagAlong` (the set insert is a
no-op on an already-present member). -/
def tippoolListenToAccount (env : TipEnv) (outputs : List WOut) (wOut : WOut) :
    List WOut :=
  if isCandidateToTagAlong env wOut = false then outputs
  else if wOut ∈ outputs then outputs
  else wOut :: outputs

/-- The `outputs` part of `tippool.purge`: every member for which
`isCandidateToTagAlong` no longer holds is collected and deleted. -/
def tippoolPurgeOutputs (env : TipEnv) (outputs : List WOut) : List WOut :=
  outputs.filter fun wOut => isCandidateToTagAlong env wOut

/-- C10: outputs of branch transactions never pass `isCandidateToTagAlong`;
the account listener inserts only outputs passing the predicate, so it
preserves the membership invariant; and after a purge every remaining
member passes the predicate (with all VID states read from the same
environment). -/
theorem c10_tippool_candidate_invariant (env : TipEnv) (outputs : List WOut)
    (wOut : WOut) :
    (env.isBranchTx wOut.vid = true → isCandidateToTagAlong env wOut = false) ∧
    ((∀ x ∈ outputs, isCandidateToTagAlong env x = true) →
      ∀ x ∈ tippoolListenToAccount env outputs wOut,
        isCandidateToTagAlong env x = true) ∧
    (∀ x ∈ tippoolPurgeOutputs env outputs, isCandidateToTagAlong env x = true) := by
  refine ⟨?_, ?_, ?_⟩
  · intro hbr
    unfold isCandidateToTagAlong
    cases hbad : env.isBadOrDeleted wOut.vid
    · simp [hbad, hbr]
    · simp [hbad]
  · intro hall x hx
    unfold tippoolListenToAccount at hx
    cases hcand : isCandidateToTagAlong env wOut
    · simp only [hcand, if_true] at hx
      exact hall x hx
    · simp only [hcand] at hx
      by_cases hmem : wOut ∈ outputs
      · rw [if_neg (by simp), if_pos hmem] at hx
        exact hall x hx
      · rw [if_neg (by simp), if_neg hmem] at hx
        rcases List.mem_cons.mp hx with rfl | hx'
        · exact hcand
        · exact hall x hx'
  · intro x hx
    exact (List.mem_filter.mp hx).2

theorem c10_tippool_candidate_invariant_witness :
    isCandidateToTagAlong
      ⟨fun _ => false, fun v => v == 4, fun _ _ => .ok none⟩ ⟨4, 0⟩ = false :=
  (c10_tippool_candidate_invariant
    ⟨fun _ => false, fun v => v == 4, fun _ _ => .ok none⟩ [] ⟨4, 0⟩).1 (by decide)

/-- The byte fields `BaseValidation` reads from the lazy-byte tree of a
transaction: `BytesAtPath(TxTimestamp)`, `BytesAtPath(TxSequencerAndStemOutputIndices)`
and `BytesAtPath(TxTotalProducedAmount)` (bytes as naturals below 256). -/
structure TxTreeData where
  tsBin : List Nat
  seqStemBytes : List Nat
  totalAmountBin : List Nat
deriving DecidableEq

/-- Big-endian unsigned integer of a byte string. -/
def beUint (bs : List Nat) : Nat :=
  bs.foldl (fun acc b => acc * 256 + b) 0

/-- Errors of `ledger.LogicalTimeFromBytes` in the model. -/
inductive TimeErr where
  | wrongLength
  | wrongTick
deriving DecidableEq

/-- Modelled from the spec: `ledger.LogicalTimeFromBytes` is not among the
provided sources; per the spec wire format the timestamp is 5 bytes — 4
big-endian slot bytes and 1 tick byte — and tick values are below the
ticks-per-slot bound (default 100). -/
def logicalTimeFromBytes (bs : List Nat) : Except TimeErr LogicalTime :=
  match bs with
  | [b0, b1, b2, b3, t] =>
    if t < 100 then .ok ⟨beUint [b0, b1, b2, b3], t⟩
    else .error .wrongTick
  | _ => .error .wrongLength

/-- Errors of `transaction.BaseValidation`, in source order. -/
inductive BaseValErr where
  | wrongIndicesLen
  | wrongBranchFlag
  | badTimestamp (e : TimeErr)
  | seqOnBoundaryNotBranch
  | wrongTotalAmountLen
deriving DecidableEq

/-- The fields a successful `BaseValidation` stores on the `Transaction`. -/
structure BaseTx where
  sequencerMilestoneFlag : Bool
  branchTransactionFlag : Bool
  timestamp : LogicalTime
  totalAmount : Nat
deriving DecidableEq

/-- `transaction.BaseValidation` (ledger/transaction/tx.go): the two
sequencer-and-stem index bytes must be present; the sequencer-milestone flag
is `bytes[0] != 0xff` and the branch flag `bytes[1] != 0xff`; a branch flag
without the sequencer flag is malformed; the timestamp must parse; a
sequencer milestone with tick 0 that is not a branch is rejected (only
branches sit on the slot boundary); and the total-produced-amount field
must be 8 bytes.  `Transaction.FromBytes` runs exactly this option first
and returns no transaction on error. -/
def baseValidation (d : TxTreeData) : Except BaseValErr BaseTx :=
  if d.seqStemBytes.length ≠ 2 then .error .wrongIndicesLen
  else
    let sequencerMilestoneFlag : Bool := d.seqStemBytes.getD 0 0 != 255
    let branchTransactionFlag : Bool := d.seqStemBytes.getD 1 0 != 255
    if branchTransactionFlag && !sequencerMilestoneFlag then .error .wrongBranchFlag
    else
      match logicalTimeFromBytes d.tsBin with
      | .error e => .error (.badTimestamp e)
      | .ok ts =>
        if ts.tick == 0 && sequencerMilestoneFlag && !branchTransactionFlag then
          .error .seqOnBoundaryNotBranch
        else if d.totalAmountBin.length ≠ 8 then .error .wrongTotalAmountLen
        else .ok ⟨sequencerMilestoneFlag, branchTransactionFlag, ts,
          beUint d.totalAmountBin⟩

/-- C7: `BaseValidation` rejects a stem-output index byte other than 0xff
combined with a sequencer-output index byte equal to 0xff; rejects a tick-0
sequencer milestone that is not a branch; and does not reject a
non-sequencer transaction with tick 0 through these checks (it passes base
validation when its remaining fields are well-formed). -/
theorem c7_base_validation_flags (d1 d2 d3 : TxTreeData) (q1 s2 : Nat)
    (ts2 ts3 : LogicalTime) :
    (d1.seqStemBytes = [255, q1] → q1 ≠ 255 →
      baseValidation d1 = .error .wrongBranchFlag) ∧
    (d2.seqStemBytes = [s2, 255] → s2 ≠ 255 →
      logicalTimeFromBytes d2.tsBin = .ok ts2 → ts2.tick = 0 →
      baseValidation d2 = .error .seqOnBoundaryNotBranch) ∧
    (d3.seqStemBytes = [255, 255] →
      logicalTimeFromBytes d3.tsBin = .ok ts3 → ts3.tick = 0 →
      d3.totalAmountBin.length = 8 →
      baseValidation d3 = .ok ⟨false, false, ts3, beUint d3.totalAmountBin⟩) := by
  refine ⟨?_, ?_, ?_⟩
  · intro h1 hq
    simp [baseValidation, h1, hq, List.getD]
  · intro h2 hs hts htick
    simp [baseValidation, h2, hs, hts, htick, List.getD]
  · intro h3 hts htick hlen
    simp [baseValidation, h3, hts, htick, hlen, List.getD]

theorem c7_base_validation_flags_witness :
    baseValidation ⟨[0, 0, 0, 9, 7], [255, 0], [0, 0, 0, 0, 0, 0, 0, 1]⟩ =
      .error .wrongBranchFlag ∧
    baseValidation ⟨[0, 0, 0, 9, 0], [0, 255], [0, 0, 0, 0, 0, 0, 0, 1]⟩ =
      .error .seqOnBoundaryNotBranch ∧
    baseValidation ⟨[0, 0, 0, 9, 0], [255, 255], [0, 0, 0, 0, 0, 0, 0, 1]⟩ =
      .ok ⟨false, false, ⟨9, 0⟩, 1⟩ := by
  have h := c7_base_validation_flags
    ⟨[0, 0, 0, 9, 7], [255, 0], [0, 0, 0, 0, 0, 0, 0, 1]⟩
    ⟨[0, 0, 0, 9, 0], [0, 255], [0, 0, 0, 0, 0, 0, 0, 1]⟩
    ⟨[0, 0, 0, 9, 0], [255, 255], [0, 0, 0, 0, 0, 0, 0, 1]⟩ 0 0 ⟨9, 0⟩ ⟨9, 0⟩
  refine ⟨h.1 (by decide) (by decide), ?_, ?_⟩
  · exact h.2.1 (by decide) (by decide) (by decide) (by decide)
  · exact h.2.2 (by decide) (by decide) (by decide) (by decide)

/-- `math.MaxUint64`. -/
def maxUint64 : Nat := 2 ^ 64 - 1

/-- Errors of the `ScanOutputs` validation option: output number `i` failed
to parse, the running total would overflow at output `i`, or the computed
total disagrees with the declared total-produced-amount field. -/
inductive ScanErr where
  | parseFailed (i : Nat)
  | overflow (i : Nat)
  | totalMismatch
deriving DecidableEq

/-- The scanning loop of `transaction.ScanOutputs` (ledger/transaction/tx.go):
outputs are parsed in order by `ledger.OutputFromBytesMain` (an external
collaborator of this subsystem, passed in as `parse`, returning the amount);
before each addition the uint64 overflow guard
`amount > math.MaxUint64 - totalAmount` is checked. -/
def scanOutputsLoop (parse : List Nat → Option Nat) (outs : List (List Nat))
    (i : Nat) (totalAmount : Nat) : Except ScanErr Nat :=
  match outs with
  | [] => .ok totalAmount
  | o :: rest =>
    match parse o with
    | none => .error (.parseFailed i)
    | some amount =>
      if amount > maxUint64 - totalAmount then .error (.overflow i)
      else scanOutputsLoop parse rest (i + 1) (totalAmount + amount)

/-- `transaction.ScanOutputs`: scan all produced outputs accumulating the
exact total, then compare with the declared total-produced-amount field. -/
def scanOutputs (parse : List Nat → Option Nat) (outs : List (List Nat))
    (declaredTotal : Nat) : Except ScanErr Unit :=
  match scanOutputsLoop parse outs 0 0 with
  | .error e => .error e
  | .ok totalAmount =>
    if declaredTotal ≠ totalAmount then .error .totalMismatch else .ok ()

/-- The amounts of the outputs when every output parses. -/
def parsedAmounts (parse : List Nat → Option Nat) : List (List Nat) → Option (List Nat)
  | [] => some []
  | o :: rest =>
    match parse o, parsedAmounts parse rest with
    | some a, some arest => some (a :: arest)
    | _, _ => none

theorem scanOutputsLoop_ok_of_sum_le (parse : List Nat → Option Nat) :
    ∀ (outs : List (List Nat)) (amts : List Nat) (i acc : Nat),
      parsedAmounts parse outs = some amts → acc + amts.sum ≤ maxUint64 →
      scanOutputsLoop parse outs i acc = .ok (acc + amts.sum) := by
  intro outs
  induction outs with
  | nil =>
    intro amts i acc hp hle
    simp [parsedAmounts] at hp
    subst hp
    simp [scanOutputsLoop]
  | cons o rest ih =>
    intro amts i acc hp hle
    cases hpo : parse o with
    | none => simp [parsedAmounts, hpo] at hp
    | some a =>
      cases hpr : parsedAmounts parse rest with
      | none => simp [parsedAmounts, hpo, hpr] at hp
      | some arest =>
        simp [parsedAmounts, hpo, hpr] at hp
        subst hp
        simp only [scanOutputsLoop, hpo]
        rw [if_neg (by simp at hle ⊢; omega)]
        rw [ih arest (i + 1) (acc + a) hpr (by simp at hle ⊢; omega)]
        simp
        omega

theorem scanOutputsLoop_ok_shape (parse : List Nat → Option Nat) :
    ∀ (outs : List (List Nat)) (i acc t : Nat),
      scanOutputsLoop parse outs i acc = .ok t →
      ∃ amts, parsedAmounts parse outs = some amts ∧ t = acc + amts.sum := by
  intro outs
  induction outs with
  | nil =>
    intro i acc t h
    simp [scanOutputsLoop] at h
    exact ⟨[], by simp [parsedAmounts], by simp [← h]⟩
  | cons o rest ih =>
    intro i acc t h
    cases hpo : parse o with
    | none => simp [scanOutputsLoop, hpo] at h
    | some a =>
      simp only [scanOutputsLoop, hpo] at h
      by_cases hov : a > maxUint64 - acc
      · rw [if_pos hov] at h; simp at h
      · rw [if_neg hov] at h
        obtain ⟨arest, hrest, hsum⟩ := ih (i + 1) (acc + a) t h
        refine ⟨a :: arest, by simp [parsedAmounts, hpo, hrest], ?_⟩
        simp [hsum]
        omega

theorem scanOutputsLoop_overflow (parse : List Nat → Option Nat) :
    ∀ (outs : List (List Nat)) (amts : List Nat) (i acc : Nat),
      parsedAmounts parse outs = some amts → acc ≤ maxUint64 →
      maxUint64 < acc + amts.sum →
      ∃ j, scanOutputsLoop parse outs i acc = .error (.overflow j) := by
  intro outs
  induction outs with
  | nil =>
    intro amts i acc hp hacc hover
    simp [parsedAmounts] at hp
    subst hp
    simp at hover
    omega
  | cons o rest ih =>
    intro amts i acc hp hacc hover
    cases hpo : parse o with
    | none => simp [parsedAmounts, hpo] at hp
    | some a =>
      cases hpr : parsedAmounts parse rest with
      | none => simp [parsedAmounts, hpo, hpr] at hp
      | some arest =>
        simp [parsedAmounts, hpo, hpr] at hp
        subst hp
        simp only [scanOutputsLoop, hpo]
        by_cases hov : a > maxUint64 - acc
        · exact ⟨i, by rw [if_pos hov]⟩
        · rw [if_neg hov]
          exact ih arest (i + 1) (acc + a) hpr (by omega)
            (by simp at hover ⊢; omega)

/-- C8: `ScanOutputs` succeeds iff every produced output parses and the
exact (non-wrapping) sum of the produced amounts equals the declared
total-produced-amount field; and when all outputs parse but the exact sum
exceeds the uint64 range, it fails with the arithmetic-overflow error
rather than comparing a wrapped value.  The declared field is decoded from
8 bytes, so it is assumed below the uint64 bound. -/
theorem c8_scan_outputs_conservation (parse : List Nat → Option Nat)
    (outs : List (List Nat)) (declaredTotal : Nat)
    (hdecl : declaredTotal ≤ maxUint64) :
    (scanOutputs parse outs declaredTotal = .ok () ↔
      ∃ amts, parsedAmounts parse outs = some amts ∧ amts.sum = declaredTotal) ∧
    (∀ amts, parsedAmounts parse outs = some amts → maxUint64 < amts.sum →
      ∃ j, scanOutputs parse outs declaredTotal = .error (.overflow j)) := by
  constructor
  · constructor
    · intro hok
      unfold scanOutputs at hok
      cases hloop : scanOutputsLoop parse outs 0 0 with
      | error e =>
        simp only [hloop] at hok
        exact absurd hok (by simp)
      | ok t =>
        simp only [hloop] at hok
        by_cases hne : declaredTotal ≠ t
        · rw [if_pos hne] at hok; simp at hok
        · obtain ⟨amts, hp, hsum⟩ := scanOutputsLoop_ok_shape parse outs 0 0 t hloop
          refine ⟨amts, hp, ?_⟩
          simp at hsum
          omega
    · rintro ⟨amts, hp, hsum⟩
      unfold scanOutputs
      rw [scanOutputsLoop_ok_of_sum_le parse outs amts 0 0 hp (by omega)]
      simp [hsum]
  · intro amts hp hover
    obtain ⟨j, hj⟩ := scanOutputsLoop_overflow parse outs amts 0 0 hp
      (by simp [maxUint64]) (by omega)
    exact ⟨j, by unfold scanOutputs; rw [hj]⟩

theorem c8_scan_outputs_conservation_witness :
    scanOutputs (fun o => some (o.headD 0)) [[10], [20]] 30 = .ok () :=
  ((c8_scan_outputs_conservation (fun o => some (o.headD 0)) [[10], [20]] 30
    (by decide)).1).mpr ⟨[10, 20], by decide, by decide⟩
